import Mathlib

/-! # gabi-cli: endpoint lookup, query client, interactive loop and result renderer

A shallow embedding of `gabi-cli.go`.  Go values of type `error` are modelled by
`GoError`, Go's multiple return values by pairs whose error component is an
`Option GoError` (`none` is Go's `nil`), and the external collaborators (the
route listing API, the HTTP client, the JSON codec, the table layout) are
parameters of the functions that call them.
-/

namespace GabiCli

/-! ## Errors -/

/-- The `reason` of a Kubernetes API status error (`metav1.StatusReason`). -/
inductive StatusReason where
  | Unknown
  | Unauthorized
  | Forbidden
  | NotFound
  | InternalError
  deriving DecidableEq, Repr

/-- Go `error` values, by the way they are built.
`errorString` is what `errors.New` and `fmt.Errorf` without a `%w` verb return,
`wrapError` is `fmt.Errorf` with a `%w` verb (the whole formatted message and the
wrapped error), `statusError` is an `apierrors.StatusError`, `EOF` is the
sentinel `io.EOF`. -/
inductive GoError where
  | errorString (s : String)
  | wrapError (msg : String) (err : GoError)
  | statusError (reason : StatusReason) (message : String)
  | EOF
  deriving DecidableEq, Repr

/-- The method `Error()` of a Go error. -/
def GoError.Error : GoError → String
  | .errorString s => s
  | .wrapError msg _ => msg
  | .statusError _ message => message
  | .EOF => "EOF"

/-- The call `errors.Is(err, io.EOF)`: identity with the sentinel, along the chain of
wrapped errors. -/
def errorsIsEOF : GoError → Bool
  | .EOF => true
  | .wrapError _ err => errorsIsEOF err
  | _ => false

/-- The function `apierrors.ReasonForError`: the reason of the first API status found
along the chain of wrapped errors, `Unknown` when there is none. -/
def ReasonForError : GoError → StatusReason
  | .statusError reason _ => reason
  | .wrapError _ err => ReasonForError err
  | _ => StatusReason.Unknown

/-- The function `apierrors.IsUnauthorized`. -/
def IsUnauthorized (err : GoError) : Bool :=
  decide (ReasonForError err = StatusReason.Unauthorized)

/-- The function `apierrors.IsNotFound`. -/
def IsNotFound (err : GoError) : Bool :=
  decide (ReasonForError err = StatusReason.NotFound)

/-- The call `fmt.Errorf(format ++ "%w", err)` for a format that ends in its single
`%w` verb: the message is the text before the verb followed by `err.Error()`. -/
def ErrorfW (text : String) (err : GoError) : GoError :=
  GoError.wrapError (text ++ err.Error) err

/-! ## Routes (Endpoint Locator) -/

/-- The type `routev1.TLSConfig`, as far as the program looks at it. -/
structure TLSConfig where
  Termination : String
  deriving DecidableEq, Repr

/-- The type `routev1.RouteSpec`: host, path and the optional TLS configuration
(a pointer in Go, `none` is `nil`). -/
structure RouteSpec where
  Host : String
  Path : String
  TLS : Option TLSConfig
  deriving DecidableEq, Repr

/-- The type `routev1.Route`. -/
structure Route where
  Name : String
  Spec : RouteSpec
  deriving DecidableEq, Repr

/-- The zero value of `routev1.Route`, what a named result holds before it is assigned. -/
def Route.zero : Route := { Name := "", Spec := { Host := "", Path := "", TLS := none } }

/-- The function `strings.HasPrefix(s, pre)`. -/
def HasPrefix (s pre : String) : Bool :=
  pre.toList.isPrefixOf s.toList

/-- The `for _, route := range routes.Items` loop of `getGabiRoute` (lines 128-135):
the first route whose name has the prefix is assigned to `gabi` and returned with the
`nil` error of the listing; when the range is exhausted the error is set. -/
def getGabiRoute.loop (namespace_ : String) : List Route → Route × Option GoError
  | [] => (Route.zero,
      some (GoError.errorString ("no gabi route found in namespace " ++ namespace_)))
  | route :: items =>
      if HasPrefix route.Name "gabi-" then (route, none)
      else getGabiRoute.loop namespace_ items

/-- The function `getGabiRoute` (lines 117-136).  `newForConfig` is the error of
`routeclientv1.NewForConfig(config)` (`none` when the client set was built) and
`list` the outcome of `clientset.Routes(namespace).List(...)`: the listing error, or
`routes.Items`.  The results are the named results `(gabi, err)`. -/
def getGabiRoute (newForConfig : Option GoError) (list : Except GoError (List Route))
    (namespace_ : String) : Route × Option GoError :=
  match newForConfig with
  | some err => (Route.zero, some err)
  | none =>
    match list with
    | .error err => (Route.zero, some err)
    | .ok items => getGabiRoute.loop namespace_ items

/-- The function `gabiUrlFromRoute` (lines 138-144). -/
def gabiUrlFromRoute (route : Route) : String :=
  let proto := "https"
  let proto := if route.Spec.TLS = none then "https" else proto
  proto ++ "://" ++ route.Spec.Host ++ route.Spec.Path

/-! ## Query Client -/

/-- The type `models.QueryRequest` of the gabi service. -/
structure QueryRequest where
  Query : String
  deriving DecidableEq, Repr

/-- The type `models.QueryResponse` of the gabi service: the result set and the
application-level error string. -/
structure QueryResponse where
  Result : List (List String)
  Error : String
  deriving DecidableEq, Repr

/-- The zero value `models.QueryResponse{}`. -/
def QueryResponse.zero : QueryResponse := { Result := [], Error := "" }

/-- An `http.Header`, as the list of its key/value entries. -/
abbrev HttpHeader := List (String × String)

/-- The method `Header.Set`: the entries of the key are replaced by the value. -/
def HttpHeader.Set (h : HttpHeader) (key value : String) : HttpHeader :=
  h.filter (fun kv => decide (kv.1 ≠ key)) ++ [(key, value)]

/-- The method `Header.Add`: the value is appended to the entries of the key. -/
def HttpHeader.Add (h : HttpHeader) (key value : String) : HttpHeader :=
  h ++ [(key, value)]

/-- An `http.Request`, as far as `queryGabi` sets it up. -/
structure Request where
  Method : String
  URL : String
  Body : String
  Header : HttpHeader
  deriving DecidableEq, Repr

/-- An `http.Response`, as far as `queryGabi` reads it. -/
structure Response where
  StatusCode : Int
  Status : String
  Body : String
  deriving DecidableEq, Repr

/-- The constant `http.StatusOK`. -/
def StatusOK : Int := 200

/-- The constant `http.StatusBadRequest`. -/
def StatusBadRequest : Int := 400

/-- The table cells of go-pretty, values of type `interface{}`: `nil`, or a string. -/
inductive Cell where
  | nil
  | str (s : String)
  deriving DecidableEq, Repr

/-- The type `table.Row`. -/
abbrev Row := List Cell

/-- The state of a go-pretty `table.Writer`, as far as `formatResult` drives it:
the appended header rows, the appended body rows and the style option `DrawBorder`
(true in the default style). -/
structure Table where
  rowsHeader : List Row
  rows : List Row
  DrawBorder : Bool
  deriving DecidableEq, Repr

/-- The external collaborators of the query client and of the renderer.
`Marshal` is `json.Marshal`, `NewRequest` is `http.NewRequest` (method, URL, body),
`Do` is `http.DefaultClient.Do`, `Decode` is `json.Decoder.Decode` into a zero
`QueryResponse` (the value it leaves behind and its error), `Layout` is the text
go-pretty lays out for a table that has at least one column. -/
structure Env where
  Marshal : QueryRequest → Except GoError String
  NewRequest : String → String → String → Except GoError Request
  Do : Request → Except GoError Response
  Decode : String → QueryResponse × Option GoError
  Layout : Table → String

/-- Lines 157-158 of `queryGabi`: the content type is set and the bearer token added. -/
def setHeaders (req : Request) (token : String) : Request :=
  let req := { req with Header := req.Header.Set "Content-Type" "application/json" }
  { req with Header := req.Header.Add "Authorization" ("Bearer " ++ token) }

/-- The function `queryGabi` (lines 146-175). -/
def queryGabi (env : Env) (url query token : String) : QueryResponse × Option GoError :=
  let reqModel : QueryRequest := { Query := query }
  match env.Marshal reqModel with
  | .error err => (QueryResponse.zero, some (ErrorfW "marshal of query failed: " err))
  | .ok reqData =>
    match env.NewRequest "POST" (url ++ "/query") reqData with
    | .error err => (QueryResponse.zero, some (ErrorfW "request build failed: " err))
    | .ok req =>
      match env.Do (setHeaders req token) with
      | .error err => (QueryResponse.zero, some (ErrorfW "gabi request failed: " err))
      | .ok resp =>
        if resp.StatusCode ≠ StatusOK ∧ resp.StatusCode ≠ StatusBadRequest then
          (QueryResponse.zero, some (GoError.errorString ("http status: " ++ resp.Status)))
        else
          let dec := env.Decode resp.Body
          match dec.2 with
          | some e => (dec.1, some (ErrorfW "malformed result " e))
          | none => (dec.1, none)

/-- Whether a call of `queryGabi` gets as far as decoding a body: the query is
marshalled, the request is built, the transport returns a response, and its status is
200 or 400. -/
def reachesDecode (env : Env) (url query token : String) : Bool :=
  match env.Marshal { Query := query } with
  | .error _ => false
  | .ok reqData =>
    match env.NewRequest "POST" (url ++ "/query") reqData with
    | .error _ => false
    | .ok req =>
      match env.Do (setHeaders req token) with
      | .error _ => false
      | .ok resp => decide (resp.StatusCode = StatusOK ∨ resp.StatusCode = StatusBadRequest)

/-! ## Result Renderer -/

/-- A Go run-time panic of an index or slice expression. -/
inductive Panic where
  | indexOutOfRange
  | sliceBoundsOutOfRange
  deriving DecidableEq, Repr

/-- The index expression `xs[i]`, which panics out of range. -/
def goIndex {α : Type} (xs : List α) (i : Nat) : Except Panic α :=
  match xs.get? i with
  | some x => .ok x
  | none => .error Panic.indexOutOfRange

/-- The slice expression `xs[lo:]`, which panics when `lo` exceeds the length. -/
def goSliceFrom {α : Type} (xs : List α) (lo : Nat) : Except Panic (List α) :=
  if lo ≤ xs.length then .ok (xs.drop lo) else .error Panic.sliceBoundsOutOfRange

/-- The `for i, cell := range raw` loop of `convertToRow`: `r[i] = interface{}(cell)`. -/
def convertToRow.loop : Nat → List String → Row → Row
  | _, [], r => r
  | i, cell :: raw, r => convertToRow.loop (i + 1) raw (r.set i (Cell.str cell))

/-- The function `convertToRow` (lines 192-198): `make(table.Row, len(raw))` is a row of
`len(raw)` nil cells, which the loop then fills. -/
def convertToRow (raw : List String) : Row :=
  convertToRow.loop 0 raw (List.replicate raw.length Cell.nil)

/-- The function `table.NewWriter`: an empty table in the default style. -/
def NewWriter : Table := { rowsHeader := [], rows := [], DrawBorder := true }

/-- The method `AppendHeader`. -/
def Table.AppendHeader (t : Table) (row : Row) : Table :=
  { t with rowsHeader := t.rowsHeader ++ [row] }

/-- The method `AppendRow`. -/
def Table.AppendRow (t : Table) (row : Row) : Table :=
  { t with rows := t.rows ++ [row] }

/-- The number of columns go-pretty computes for a render: the longest appended row. -/
def Table.numColumns (t : Table) : Nat :=
  ((t.rowsHeader ++ t.rows).map List.length).foldl max 0

/-- The method `Render` with an output mirror set: go-pretty lays the table out only
when it has at least one column, and writes the text and a newline to the mirror only
when the text is not empty.  The result is the list of writes to the mirror. -/
def Table.Render (layout : Table → String) (t : Table) : List String :=
  let outStr := if t.numColumns > 0 then layout t else ""
  if outStr.length > 0 then [outStr, "\n"] else []

/-- The function `formatResult` (lines 177-190): the table as it is rendered and the
writes to `out`, or the panic of an index or slice expression. -/
def formatResult (layout : Table → String) (r : QueryResponse) :
    Except Panic (Table × List String) := do
  let t := NewWriter
  let t ← if r.Result.length > 0 then do
      let first ← goIndex r.Result 0
      pure (t.AppendHeader (convertToRow first))
    else pure t
  let t ← if r.Result.length > 0 then do
      let body ← goSliceFrom r.Result 1
      pure (body.foldl (fun t row => t.AppendRow (convertToRow row)) t)
    else pure t
  let t := { t with DrawBorder := false }
  pure (t, t.Render layout)

/-! ## Console input -/

/-- What one call of `os.Stdin.Read` returns: some bytes with a `nil` error, or no
byte and an error. -/
inductive ReadResult where
  | data (p : List Char)
  | fail (err : GoError)
  deriving DecidableEq, Repr

/-- The console, as the results of the successive calls of `os.Stdin.Read`.  Once they
are used up the stream is closed and every further call reports `io.EOF`. -/
abbrev Stdin := List ReadResult

/-- The method `os.File.Read`: the next read result and the console after it.  A read of
zero bytes without an error is reported as `io.EOF`, as `os.File.Read` does. -/
def Stdin.Read : Stdin → (List Char × Option GoError) × Stdin
  | [] => (([], some GoError.EOF), [])
  | .data p :: rest =>
      if p.isEmpty then (([], some GoError.EOF), rest) else ((p, none), rest)
  | .fail err :: rest => (([], some err), rest)

/-- A `bufio.Reader`: the underlying reader, the buffered bytes not yet consumed and
the pending read error.  The capacity of the buffer is left out: which bytes
`ReadString` returns and which reads it makes do not depend on it. -/
structure Reader where
  rd : Stdin
  buf : List Char
  err : Option GoError
  deriving DecidableEq, Repr

/-- The function `bufio.NewReader`. -/
def NewReader (rd : Stdin) : Reader := { rd := rd, buf := [], err := none }

/-- The bytes of `buf` up to and including the first `delim`, and the bytes after it;
`none` when `delim` does not occur (`bytes.IndexByte` is negative). -/
def splitDelim (delim : Char) : List Char → Option (List Char × List Char)
  | [] => none
  | c :: cs =>
      if c = delim then some ([c], cs)
      else match splitDelim delim cs with
        | some (line, rest) => some (c :: line, rest)
        | none => none

/-- The method `bufio.Reader.fill`: one read of the underlying reader, whose bytes are
appended to the buffer and whose error is recorded. -/
def Reader.fill (b : Reader) : Reader :=
  { rd := (Stdin.Read b.rd).2, buf := b.buf ++ (Stdin.Read b.rd).1.1,
    err := (Stdin.Read b.rd).1.2 }

/-- One round of the loop of `bufio.Reader.ReadSlice` up to the fill: the buffer is
searched for `delim` and the line up to it returned; failing that a pending error is
returned with the whole buffer; `none` when the round goes on to fill the buffer. -/
def Reader.ReadSlice.search (delim : Char) (b : Reader) :
    Option ((List Char × Option GoError) × Reader) :=
  match splitDelim delim b.buf with
  | some (line, rest) => some ((line, none), { b with buf := rest })
  | none =>
    match b.err with
    | some e => some ((b.buf, some e), { b with buf := [], err := none })
    | none => none

/-- The loop of `bufio.Reader.ReadSlice` on a reader with underlying reader `rd`,
buffer `buf` and pending error `err`: search, and when nothing is returned fill the
buffer and go round again.  On a closed console the fill records `io.EOF`, which the
next round returns with the buffer. -/
def Reader.ReadSlice.loop (delim : Char) :
    Stdin → List Char → Option GoError → (List Char × Option GoError) × Reader
  | [], buf, err =>
    match Reader.ReadSlice.search delim { rd := [], buf := buf, err := err } with
    | some res => res
    | none => ((buf, some GoError.EOF), { rd := [], buf := [], err := none })
  | x :: rest, buf, err =>
    match Reader.ReadSlice.search delim { rd := x :: rest, buf := buf, err := err } with
    | some res => res
    | none =>
      Reader.ReadSlice.loop delim rest
        (Reader.fill { rd := x :: rest, buf := buf, err := err }).buf
        (Reader.fill { rd := x :: rest, buf := buf, err := err }).err

/-- The method `bufio.Reader.ReadSlice`. -/
def Reader.ReadSlice (b : Reader) (delim : Char) : (List Char × Option GoError) × Reader :=
  Reader.ReadSlice.loop delim b.rd b.buf b.err

/-- The method `bufio.Reader.ReadString`: the bytes read up to and including the first
`delim`, or the bytes read before an error and that error. -/
def Reader.ReadString (b : Reader) (delim : Char) : (String × Option GoError) × Reader :=
  ((String.mk (b.ReadSlice delim).1.1, (b.ReadSlice delim).1.2), (b.ReadSlice delim).2)

/-! ## Interactive loop -/

/-- What a run of the program does that can be seen from outside: writes to standard
output and to the error stream, lines of the logger, and the calls of `queryGabi`
and of `formatResult`. -/
inductive Event where
  | stdout (s : String)
  | stderr (s : String)
  | log (s : String)
  | queryGabi (url query token : String)
  | formatResult (r : QueryResponse)
  deriving DecidableEq, Repr

/-- How a run ends: `main` returns, `log.Fatal` logs a message and exits, the run
panics, or the model ran out of fuel. -/
inductive Exit where
  | returned
  | fatal (msg : String)
  | panicked (p : Panic)
  | outOfFuel
  deriving DecidableEq, Repr

/-- A run: its events in order and the way it ends. -/
structure Run where
  trace : List Event
  exit : Exit
  deriving DecidableEq, Repr

/-- The run that does `events` first and then goes on as `r`. -/
def Run.after (events : List Event) (r : Run) : Run :=
  { trace := events ++ r.trace, exit := r.exit }

/-- The `for` loop of `main` (lines 71-90), `fuel` rounds of it at most.  Every round
makes a new `bufio.Reader` on the console, prints the prompt and reads up to `;`. -/
def mainLoop (env : Env) (gabiUrl bearerToken : String) : Nat → Stdin → Run
  | 0, _ => { trace := [], exit := Exit.outOfFuel }
  | fuel + 1, stdin =>
    let reader := NewReader stdin
    let read := reader.ReadString ';'
    let query := read.1.1
    match read.1.2 with
    | some err =>
        if errorsIsEOF err then { trace := [Event.stdout "> "], exit := Exit.returned }
        else { trace := [Event.stdout "> "], exit := Exit.fatal err.Error }
    | none =>
      let res := queryGabi env gabiUrl query bearerToken
      match res.2 with
      | some err =>
          Run.after [Event.stdout "> ", Event.queryGabi gabiUrl query bearerToken,
              Event.stderr ("Error: " ++ err.Error ++ "\n")]
            (mainLoop env gabiUrl bearerToken fuel read.2.rd)
      | none =>
        if res.1.Error ≠ "" then
          Run.after [Event.stdout "> ", Event.queryGabi gabiUrl query bearerToken,
              Event.stderr ("Error: " ++ res.1.Error ++ "\n")]
            (mainLoop env gabiUrl bearerToken fuel read.2.rd)
        else
          match formatResult env.Layout res.1 with
          | .error p =>
              { trace := [Event.stdout "> ", Event.queryGabi gabiUrl query bearerToken,
                  Event.formatResult res.1], exit := Exit.panicked p }
          | .ok out =>
              Run.after ([Event.stdout "> ", Event.queryGabi gabiUrl query bearerToken,
                  Event.formatResult res.1] ++ out.2.map Event.stdout)
                (mainLoop env gabiUrl bearerToken fuel read.2.rd)

/-- The fields of `restclient.Config` that `main` reads. -/
structure Config where
  Host : String
  BearerToken : String
  deriving DecidableEq, Repr

/-- The function `main` from line 52 on, after the flags are parsed and the cluster
configuration is loaded: `config` and `namespace_` are what `setupK8s` and
`setDefaultNamespace` leave, `newForConfig` and `list` are the outcomes of the two
calls `getGabiRoute` makes.  The loop gets one round more than the console has read
results, which is enough for it to end. -/
def main (config : Config) (namespace_ : String) (newForConfig : Option GoError)
    (list : Except GoError (List Route)) (env : Env) (stdin : Stdin) : Run :=
  let bearerToken := config.BearerToken
  if bearerToken = "" then
    { trace := [], exit := Exit.fatal "no Bearer Token please use \x60oc login\x60" }
  else
    let looking := Event.log
      ("Looking up Gabi from namespace " ++ namespace_ ++ ", cluster " ++ config.Host)
    let lookup := getGabiRoute newForConfig list namespace_
    match lookup.2 with
    | some err =>
        if IsUnauthorized err then
          { trace := [looking], exit := Exit.fatal (err.Error ++ ", please login with oc login") }
        else
          { trace := [looking], exit := Exit.fatal ("couldn\x27t find Gabi instance: " ++ err.Error) }
    | none =>
      let gabiUrl := gabiUrlFromRoute lookup.1
      Run.after [looking, Event.log ("Using Gabi " ++ gabiUrl)]
        (mainLoop env gabiUrl bearerToken (stdin.length + 1) stdin)

/-- The queries a run passed to `queryGabi`, in order. -/
def Run.queries (r : Run) : List String :=
  r.trace.filterMap (fun e => match e with
    | Event.queryGabi _ query _ => some query
    | _ => none)

/-! ## The claimed dispatch sequence -/

/-- The bytes the console delivers before its first read error or end of input. -/
def Stdin.input : Stdin → List Char
  | [] => []
  | .data p :: rest => if p.isEmpty then [] else p ++ Stdin.input rest
  | .fail _ :: _ => []

/-- The segments of `input` that end in `delim`, in order: the text after one delimiter
up to and including the next.  `acc` is the text since the last delimiter. -/
def segmentsFrom (delim : Char) (acc : List Char) : List Char → List String
  | [] => []
  | c :: cs =>
      if c = delim then String.mk (acc ++ [c]) :: segmentsFrom delim [] cs
      else segmentsFrom delim (acc ++ [c]) cs

/-- The dispatch sequence as the specification words it: the `;`-terminated segments
of the console input, in the order entered. -/
def specQueries (stdin : Stdin) : List String :=
  segmentsFrom ';' [] (Stdin.input stdin)

/-! ## Example collaborators -/

/-- A query service that answers every request with the given status and whose body
decodes to the given outcome; the request body is the query, the table layout is the
fixed text `table`. -/
def envWith (status : Int) (dec : QueryResponse × Option GoError) : Env :=
  { Marshal := fun q => .ok q.Query
    NewRequest := fun m u b => .ok { Method := m, URL := u, Body := b, Header := [] }
    Do := fun req => .ok { StatusCode := status, Status := "status", Body := req.Body }
    Decode := fun _ => dec
    Layout := fun _ => "table" }

/-- A query service whose request builder fails. -/
def envBuildFails : Env :=
  { envWith 200 (QueryResponse.zero, none) with
    NewRequest := fun _ _ _ => .error (GoError.errorString "bad url") }

/-- Two routes, the second of which is a gabi route. -/
def exampleRoutes : List Route :=
  [{ Name := "web", Spec := { Host := "web.example.org", Path := "", TLS := none } },
   { Name := "gabi-db", Spec := { Host := "gabi.example.org", Path := "/api", TLS := none } }]

/-- The result set of the rendering example: a header row and two body rows. -/
def exampleResult : QueryResponse :=
  { Result := [["a", "b"], ["1", "2"], ["3", "4"]], Error := "" }

/-! ## Endpoint Locator: theorems -/

theorem getGabiRoute_loop_found (namespace_ : String) (items : List Route)
    (h : ∃ r ∈ items, HasPrefix r.Name "gabi-" = true) :
    ∃ pre r post, items = pre ++ r :: post ∧
      (∀ x ∈ pre, HasPrefix x.Name "gabi-" = false) ∧
      HasPrefix r.Name "gabi-" = true ∧
      getGabiRoute.loop namespace_ items = (r, none) := by
  induction items with
  | nil => obtain ⟨r, hr, _⟩ := h; cases hr
  | cons route items ih =>
    by_cases hp : HasPrefix route.Name "gabi-" = true
    · exact ⟨[], route, items, rfl, by simp, hp, by simp [getGabiRoute.loop, hp]⟩
    · have hrest : ∃ r ∈ items, HasPrefix r.Name "gabi-" = true := by
        obtain ⟨r, hr, hrp⟩ := h
        rcases List.mem_cons.mp hr with rfl | hmem
        · exact absurd hrp hp
        · exact ⟨r, hmem, hrp⟩
      obtain ⟨pre, r, post, hsplit, hpre, hrp, hloop⟩ := ih hrest
      refine ⟨route :: pre, r, post, by simp [hsplit], ?_, hrp, ?_⟩
      · intro x hx
        rcases List.mem_cons.mp hx with rfl | hmem
        · simpa using hp
        · exact hpre x hmem
      · simp [getGabiRoute.loop, hp, hloop]

theorem getGabiRoute_loop_none (namespace_ : String) (items : List Route)
    (h : ∀ r ∈ items, HasPrefix r.Name "gabi-" = false) :
    getGabiRoute.loop namespace_ items =
      (Route.zero, some (GoError.errorString ("no gabi route found in namespace " ++ namespace_))) := by
  induction items with
  | nil => rfl
  | cons route items ih =>
    have hp : HasPrefix route.Name "gabi-" = false := h route (List.mem_cons_self _ _)
    simp [getGabiRoute.loop, hp, ih (fun r hr => h r (List.mem_cons_of_mem _ hr))]

/-- C1: when some listed route has a name starting with `gabi-`, `getGabiRoute` returns,
with no error, the first such route in list order: every route before it has a name
that does not start with `gabi-`. -/
theorem getGabiRoute_returns_first_match (items : List Route) (namespace_ : String)
    (h : ∃ r ∈ items, HasPrefix r.Name "gabi-" = true) :
    ∃ pre r post, items = pre ++ r :: post ∧
      (∀ x ∈ pre, HasPrefix x.Name "gabi-" = false) ∧
      HasPrefix r.Name "gabi-" = true ∧
      getGabiRoute none (.ok items) namespace_ = (r, none) := by
  simpa [getGabiRoute] using getGabiRoute_loop_found namespace_ items h

theorem getGabiRoute_returns_first_match_witness :
    (∃ r ∈ exampleRoutes, HasPrefix r.Name "gabi-" = true) ∧
    ∃ pre r post, exampleRoutes = pre ++ r :: post ∧
      (∀ x ∈ pre, HasPrefix x.Name "gabi-" = false) ∧
      HasPrefix r.Name "gabi-" = true ∧
      getGabiRoute none (.ok exampleRoutes) "ns" = (r, none) :=
  ⟨⟨_, List.mem_cons_of_mem _ (List.mem_cons_self _ _), by decide⟩,
   getGabiRoute_returns_first_match exampleRoutes "ns"
     ⟨_, List.mem_cons_of_mem _ (List.mem_cons_self _ _), by decide⟩⟩

/-- C2, as stated, fails: with an empty listing the lookup error is a plain error that is
not an API `NotFound` status, and `main` ends exactly as it does for a listing that
failed with a `Forbidden` status carrying the same message. -/
theorem getGabiRoute_notFound_counterexample :
    getGabiRoute none (.ok []) "ns" =
      (Route.zero, some (GoError.errorString "no gabi route found in namespace ns")) ∧
    IsNotFound (GoError.errorString "no gabi route found in namespace ns") = false ∧
    main { Host := "c", BearerToken := "t" } "ns" none (.ok [])
        (envWith 200 (QueryResponse.zero, none)) [] =
      main { Host := "c", BearerToken := "t" } "ns" none
        (.error (GoError.statusError StatusReason.Forbidden
          "no gabi route found in namespace ns"))
        (envWith 200 (QueryResponse.zero, none)) [] := by
  refine ⟨by decide, by decide, by decide⟩

/-- C2, amended: for a successful listing `getGabiRoute` fails exactly when no route name
starts with `gabi-`; it then returns the zero route and the plain error
`no gabi route found in namespace <ns>`, which is neither an API `NotFound` nor an
`Unauthorized` status, and `main` ends in its generic fatal branch; when it succeeds
the route returned is a listed route whose name starts with `gabi-`. -/
theorem getGabiRoute_fails_iff_no_match (items : List Route) (namespace_ : String) :
    ((getGabiRoute none (.ok items) namespace_).2 ≠ none ↔
      ∀ r ∈ items, HasPrefix r.Name "gabi-" = false) ∧
    ((∀ r ∈ items, HasPrefix r.Name "gabi-" = false) →
      getGabiRoute none (.ok items) namespace_ =
        (Route.zero,
          some (GoError.errorString ("no gabi route found in namespace " ++ namespace_))) ∧
      IsNotFound (GoError.errorString ("no gabi route found in namespace " ++ namespace_))
        = false ∧
      IsUnauthorized (GoError.errorString ("no gabi route found in namespace " ++ namespace_))
        = false ∧
      ∀ (config : Config) (env : Env) (stdin : Stdin), config.BearerToken ≠ "" →
        (main config namespace_ none (.ok items) env stdin).exit =
          Exit.fatal ("couldn\x27t find Gabi instance: " ++
            "no gabi route found in namespace " ++ namespace_)) ∧
    ((getGabiRoute none (.ok items) namespace_).2 = none →
      (getGabiRoute none (.ok items) namespace_).1 ∈ items ∧
      HasPrefix (getGabiRoute none (.ok items) namespace_).1.Name "gabi-" = true) := by
  by_cases hall : ∀ r ∈ items, HasPrefix r.Name "gabi-" = false
  · have hloop := getGabiRoute_loop_none namespace_ items hall
    have hget : getGabiRoute none (.ok items) namespace_ =
        (Route.zero,
          some (GoError.errorString ("no gabi route found in namespace " ++ namespace_))) := by
      simpa [getGabiRoute] using hloop
    refine ⟨⟨fun _ => hall, fun _ => by simp [hget]⟩, fun _ => ⟨hget, rfl, rfl, ?_⟩,
      by simp [hget]⟩
    intro config env stdin htok
    simp only [main, htok, hget, IsUnauthorized, ReasonForError, GoError.Error, if_false,
      decide_False, Bool.false_eq_true, reduceCtorEq]
    rw [String.append_assoc]
  · have hex : ∃ r ∈ items, HasPrefix r.Name "gabi-" = true := by
      by_contra hne
      apply hall
      intro r hr
      by_contra hrp
      exact hne ⟨r, hr, by simpa using hrp⟩
    obtain ⟨pre, r, post, hsplit, -, hrp, hloop⟩ :=
      getGabiRoute_loop_found namespace_ items hex
    have hget : getGabiRoute none (.ok items) namespace_ = (r, none) := by
      simpa [getGabiRoute] using hloop
    refine ⟨by simp [hget, hall], fun h => absurd h hall, fun _ => ?_⟩
    rw [hget]
    exact ⟨by simp [hsplit], hrp⟩

/-- C3: `gabiUrlFromRoute` returns `https://` followed by the host and the path of the
route, and the URL does not depend on the TLS field of the route. -/
theorem gabiUrlFromRoute_always_https (route : Route) :
    gabiUrlFromRoute route = "https://" ++ route.Spec.Host ++ route.Spec.Path ∧
    ∀ tls : Option TLSConfig,
      gabiUrlFromRoute { route with Spec := { route.Spec with TLS := tls } } =
        gabiUrlFromRoute route := by
  constructor
  · simp only [gabiUrlFromRoute, ite_self]
    rfl
  · intro tls
    simp only [gabiUrlFromRoute, ite_self]

/-! ## Query Client: theorems -/

theorem malformed_ne_marshal (s t : String) :
    "malformed result " ++ s ≠ "marshal of query failed: " ++ t := by
  intro h
  have h2 := congrArg (fun x => x.data.take 3) h
  simp only [String.data_append] at h2
  simp at h2

theorem malformed_ne_build (s t : String) :
    "malformed result " ++ s ≠ "request build failed: " ++ t := by
  intro h
  have h2 := congrArg (fun x => x.data.take 1) h
  simp only [String.data_append] at h2
  simp at h2

theorem malformed_ne_transport (s t : String) :
    "malformed result " ++ s ≠ "gabi request failed: " ++ t := by
  intro h
  have h2 := congrArg (fun x => x.data.take 1) h
  simp only [String.data_append] at h2
  simp at h2

theorem malformed_ne_status (s t : String) :
    "malformed result " ++ s ≠ "http status: " ++ t := by
  intro h
  have h2 := congrArg (fun x => x.data.take 1) h
  simp only [String.data_append] at h2
  simp at h2

/-- When a call does not get as far as decoding, `queryGabi` returns one of the four
early errors. -/
theorem queryGabi_early_error (env : Env) (url query token : String)
    (h : reachesDecode env url query token = false) :
    ∃ err, (queryGabi env url query token).2 = some err ∧
      ((∃ e, err = ErrorfW "marshal of query failed: " e) ∨
       (∃ e, err = ErrorfW "request build failed: " e) ∨
       (∃ e, err = ErrorfW "gabi request failed: " e) ∨
       (∃ s, err = GoError.errorString ("http status: " ++ s))) := by
  unfold reachesDecode at h
  cases hm : env.Marshal { Query := query } with
  | error e => exact ⟨_, by simp [queryGabi, hm], Or.inl ⟨e, rfl⟩⟩
  | ok reqData =>
    rw [hm] at h
    cases hn : env.NewRequest "POST" (url ++ "/query") reqData with
    | error e => exact ⟨_, by simp [queryGabi, hm, hn], Or.inr (Or.inl ⟨e, rfl⟩)⟩
    | ok req =>
      simp only [hn] at h
      cases hd : env.Do (setHeaders req token) with
      | error e =>
        exact ⟨_, by simp [queryGabi, hm, hn, hd], Or.inr (Or.inr (Or.inl ⟨e, rfl⟩))⟩
      | ok resp =>
        simp only [hd, decide_eq_false_iff_not, not_or] at h
        refine ⟨GoError.errorString ("http status: " ++ resp.Status), ?_,
          Or.inr (Or.inr (Or.inr ⟨resp.Status, rfl⟩))⟩
        simp [queryGabi, hm, hn, hd, h.1, h.2]

/-- C4: a response whose status is neither 200 nor 400 makes `queryGabi` return the empty
response and an error built from the HTTP status, whatever the decoder would do with
the body; for status 200 and 400 the response is the decoder's and the error is never
the status error. -/
theorem queryGabi_status_error (env : Env) (url query token reqData : String)
    (req : Request) (resp : Response)
    (hm : env.Marshal { Query := query } = .ok reqData)
    (hn : env.NewRequest "POST" (url ++ "/query") reqData = .ok req)
    (hd : env.Do (setHeaders req token) = .ok resp) :
    (resp.StatusCode ≠ StatusOK ∧ resp.StatusCode ≠ StatusBadRequest →
      queryGabi env url query token =
        (QueryResponse.zero, some (GoError.errorString ("http status: " ++ resp.Status))) ∧
      (queryGabi env url query token).1.Error = "" ∧
      ∀ dec : String → QueryResponse × Option GoError,
        queryGabi { env with Decode := dec } url query token =
          queryGabi env url query token) ∧
    (resp.StatusCode = StatusOK ∨ resp.StatusCode = StatusBadRequest →
      (queryGabi env url query token).1 = (env.Decode resp.Body).1 ∧
      ((queryGabi env url query token).2 = none ↔ (env.Decode resp.Body).2 = none) ∧
      ∀ s : String,
        (queryGabi env url query token).2 ≠
          some (GoError.errorString ("http status: " ++ s))) := by
  constructor
  · intro hs
    have hq : ∀ dec : String → QueryResponse × Option GoError,
        queryGabi { env with Decode := dec } url query token =
          (QueryResponse.zero,
            some (GoError.errorString ("http status: " ++ resp.Status))) := by
      intro dec
      simp [queryGabi, hm, hn, hd, hs.1, hs.2]
    have hq0 := hq env.Decode
    refine ⟨hq0, by rw [hq0]; rfl, fun dec => by rw [hq dec, hq0]⟩
  · intro hs
    have hcond : ¬ (resp.StatusCode ≠ StatusOK ∧ resp.StatusCode ≠ StatusBadRequest) := by
      rintro ⟨h1, h2⟩
      rcases hs with h | h
      · exact h1 h
      · exact h2 h
    cases hdec : (env.Decode resp.Body).2 with
    | none =>
      have hq : queryGabi env url query token = ((env.Decode resp.Body).1, none) := by
        simp [queryGabi, hm, hn, hd, hcond, hdec]
      simp [hq]
    | some e =>
      have hq : queryGabi env url query token =
          ((env.Decode resp.Body).1, some (ErrorfW "malformed result " e)) := by
        simp [queryGabi, hm, hn, hd, hcond, hdec]
      simp [hq, ErrorfW]

theorem queryGabi_status_error_witness :
    (envWith 500 (exampleResult, none)).Marshal { Query := "select 1;" } = .ok "select 1;" ∧
    queryGabi (envWith 500 (exampleResult, none)) "https://gabi" "select 1;" "token" =
      (QueryResponse.zero, some (GoError.errorString "http status: status")) :=
  ⟨rfl, ((queryGabi_status_error (envWith 500 (exampleResult, none)) "https://gabi"
    "select 1;" "token" "select 1;" _ _ rfl rfl rfl).1 ⟨by decide, by decide⟩).1⟩

/-- C5, as stated, fails: for a status 400 response whose body does not decode, the error
`queryGabi` returns has the message `malformed result unexpected EOF`, which does not
start with the text `malformed response`. -/
theorem queryGabi_malformed_text_counterexample :
    (queryGabi (envWith 400 (QueryResponse.zero, some (GoError.errorString "unexpected EOF")))
        "https://gabi" "select 1;" "token").2 =
      some (GoError.wrapError "malformed result unexpected EOF"
        (GoError.errorString "unexpected EOF")) ∧
    (GoError.wrapError "malformed result unexpected EOF"
        (GoError.errorString "unexpected EOF")).Error = "malformed result unexpected EOF" ∧
    HasPrefix "malformed result unexpected EOF" "malformed response" = false := by
  refine ⟨by decide, rfl, by decide⟩

/-- C5, amended: when the status is 200 or 400 and the body does not decode, `queryGabi`
returns an error whose message is `malformed result ` followed by the decoder's
message; that error and its message differ from every error of a call that fails
before decoding (a marshal or request build failure, a transport failure, another
status); when the body decodes, `queryGabi` returns the decoded response and no
error. -/
theorem queryGabi_malformed (env : Env) (url query token reqData : String)
    (req : Request) (resp : Response)
    (hm : env.Marshal { Query := query } = .ok reqData)
    (hn : env.NewRequest "POST" (url ++ "/query") reqData = .ok req)
    (hd : env.Do (setHeaders req token) = .ok resp)
    (hs : resp.StatusCode = StatusOK ∨ resp.StatusCode = StatusBadRequest) :
    (∀ e : GoError, (env.Decode resp.Body).2 = some e →
      queryGabi env url query token =
        ((env.Decode resp.Body).1, some (ErrorfW "malformed result " e)) ∧
      (ErrorfW "malformed result " e).Error = "malformed result " ++ e.Error ∧
      ∀ (env2 : Env) (url2 query2 token2 : String) (err2 : GoError),
        reachesDecode env2 url2 query2 token2 = false →
        (queryGabi env2 url2 query2 token2).2 = some err2 →
        err2.Error ≠ (ErrorfW "malformed result " e).Error ∧
        err2 ≠ ErrorfW "malformed result " e) ∧
    ((env.Decode resp.Body).2 = none →
      queryGabi env url query token = ((env.Decode resp.Body).1, none)) := by
  have hcond : ¬ (resp.StatusCode ≠ StatusOK ∧ resp.StatusCode ≠ StatusBadRequest) := by
    rintro ⟨h1, h2⟩
    rcases hs with h | h
    · exact h1 h
    · exact h2 h
  constructor
  · intro e hdec
    refine ⟨by simp [queryGabi, hm, hn, hd, hcond, hdec], rfl, ?_⟩
    intro env2 url2 query2 token2 err2 hr herr
    have hmsg : err2.Error ≠ (ErrorfW "malformed result " e).Error := by
      obtain ⟨err, herr', hcls⟩ := queryGabi_early_error env2 url2 query2 token2 hr
      rw [herr'] at herr
      cases herr
      rcases hcls with ⟨e', rfl⟩ | ⟨e', rfl⟩ | ⟨e', rfl⟩ | ⟨s, rfl⟩
      · exact fun h => malformed_ne_marshal _ _ h.symm
      · exact fun h => malformed_ne_build _ _ h.symm
      · exact fun h => malformed_ne_transport _ _ h.symm
      · exact fun h => malformed_ne_status _ _ h.symm
    exact ⟨hmsg, fun h => hmsg (by rw [h])⟩
  · intro hdec
    simp [queryGabi, hm, hn, hd, hcond, hdec]

theorem queryGabi_malformed_witness :
    ((400 : Int) = StatusOK ∨ (400 : Int) = StatusBadRequest) ∧
    queryGabi (envWith 400 (QueryResponse.zero, some (GoError.errorString "unexpected EOF")))
        "https://gabi" "select 1;" "token" =
      (QueryResponse.zero,
        some (ErrorfW "malformed result " (GoError.errorString "unexpected EOF"))) ∧
    (queryGabi envBuildFails "https://gabi" "select 1;" "token").2 ≠
      some (ErrorfW "malformed result " (GoError.errorString "unexpected EOF")) :=
  ⟨Or.inr rfl,
    ((queryGabi_malformed
      (envWith 400 (QueryResponse.zero, some (GoError.errorString "unexpected EOF")))
      "https://gabi" "select 1;" "token" "select 1;" _ _ rfl rfl rfl (Or.inr rfl)).1
        _ rfl).1,
    by decide⟩

/-! ## Result Renderer: theorems -/

theorem convertToRow_loop_eq (raw : List String) :
    ∀ pre : Row, convertToRow.loop pre.length raw (pre ++ List.replicate raw.length Cell.nil) =
      pre ++ raw.map Cell.str := by
  induction raw with
  | nil => intro pre; simp [convertToRow.loop]
  | cons cell raw ih =>
    intro pre
    have hset : (pre ++ List.replicate (cell :: raw).length Cell.nil).set pre.length
        (Cell.str cell) = (pre ++ [Cell.str cell]) ++ List.replicate raw.length Cell.nil := by
      simp [List.replicate_succ, List.set_append_right]
    have hlen : pre.length + 1 = (pre ++ [Cell.str cell]).length := by simp
    rw [convertToRow.loop, hset, hlen, ih (pre ++ [Cell.str cell])]
    simp

/-- The row `convertToRow` builds holds the cells of the raw row, one for one. -/
theorem convertToRow_eq_map (raw : List String) : convertToRow raw = raw.map Cell.str := by
  have h := convertToRow_loop_eq raw []
  simpa [convertToRow] using h

theorem foldl_AppendRow (body : List (List String)) :
    ∀ t : Table, body.foldl (fun t row => t.AppendRow (row.map Cell.str)) t =
      { t with rows := t.rows ++ body.map (fun row => row.map Cell.str) } := by
  induction body with
  | nil => intro t; simp
  | cons row body ih =>
    intro t
    rw [List.foldl_cons, ih]
    simp [Table.AppendRow]

theorem formatResult_cons (layout : Table → String) (first : List String)
    (rest : List (List String)) (e : String) :
    formatResult layout { Result := first :: rest, Error := e } =
      .ok (Table.mk [first.map Cell.str] (rest.map (fun row => row.map Cell.str)) false,
        Table.Render layout
          (Table.mk [first.map Cell.str] (rest.map (fun row => row.map Cell.str)) false)) := by
  simp only [formatResult, goIndex, goSliceFrom, NewWriter, Table.AppendHeader,
    convertToRow_eq_map, foldl_AppendRow]
  simp [bind, Except.bind, pure, Except.pure]

/-- C7: for a non-empty result set `formatResult` does not panic; the table it renders has
exactly one header row, equal cell for cell to the first row of the result set, its
body rows are the remaining rows in order, cell for cell, one fewer than the rows of
the result set, and the outer border is disabled; what is written is the rendering of
that table. -/
theorem formatResult_header_and_body (layout : Table → String) (r : QueryResponse)
    (h : r.Result ≠ []) :
    ∃ t : Table, formatResult layout r = .ok (t, t.Render layout) ∧
      t.rowsHeader = [(r.Result.head h).map Cell.str] ∧
      t.rows = r.Result.tail.map (fun row => row.map Cell.str) ∧
      t.rows.length = r.Result.length - 1 ∧
      t.DrawBorder = false := by
  obtain ⟨result, e⟩ := r
  cases result with
  | nil => exact absurd rfl h
  | cons first rest =>
    exact ⟨Table.mk [first.map Cell.str] (rest.map (fun row => row.map Cell.str)) false,
      formatResult_cons layout first rest e, rfl, rfl, by simp, rfl⟩

theorem formatResult_header_and_body_witness :
    exampleResult.Result ≠ [] ∧
    formatResult (fun _ => "table") exampleResult =
      .ok (Table.mk [[Cell.str "a", Cell.str "b"]]
          [[Cell.str "1", Cell.str "2"], [Cell.str "3", Cell.str "4"]] false,
        ["table", "\n"]) := by
  refine ⟨by decide, ?_⟩
  obtain ⟨⟨hd, rows, border⟩, h1, h2, h3, -, h5⟩ :=
    formatResult_header_and_body (fun _ => "table") exampleResult (by decide)
  simp only at h2 h3 h5
  subst h2 h3 h5
  exact h1

/-- C8: for the empty result set `formatResult` does not panic, appends no header and no
body row, and writes nothing. -/
theorem formatResult_empty (layout : Table → String) (e : String) :
    formatResult layout { Result := [], Error := e } =
      .ok ({ rowsHeader := [], rows := [], DrawBorder := false }, []) := by
  rfl

/-! ## Interactive loop: theorems -/

theorem ReadSlice_search_rd (delim : Char) (b : Reader)
    (res : (List Char × Option GoError) × Reader)
    (h : Reader.ReadSlice.search delim b = some res) : res.2.rd = b.rd := by
  unfold Reader.ReadSlice.search at h
  split at h
  · cases h; rfl
  · split at h
    · cases h; rfl
    · cases h

theorem ReadSlice_loop_length (delim : Char) :
    ∀ (rd : Stdin) (buf : List Char) (err : Option GoError),
      (Reader.ReadSlice.loop delim rd buf err).2.rd.length ≤ rd.length := by
  intro rd
  induction rd with
  | nil =>
    intro buf err
    rw [Reader.ReadSlice.loop]
    cases hs : Reader.ReadSlice.search delim { rd := [], buf := buf, err := err } with
    | none => simp
    | some res => simp [ReadSlice_search_rd delim _ res hs]
  | cons x rest ih =>
    intro buf err
    rw [Reader.ReadSlice.loop]
    cases hs : Reader.ReadSlice.search delim { rd := x :: rest, buf := buf, err := err } with
    | none =>
      have h := ih (Reader.fill { rd := x :: rest, buf := buf, err := err }).buf
        (Reader.fill { rd := x :: rest, buf := buf, err := err }).err
      simp only [List.length_cons]
      omega
    | some res => simp [ReadSlice_search_rd delim _ res hs]

/-- A read of a fresh reader that finds the delimiter has consumed at least one read
result of the console. -/
theorem ReadString_fresh_consumes (stdin : Stdin) (delim : Char) (query : String)
    (rest : Reader) (h : (NewReader stdin).ReadString delim = ((query, none), rest)) :
    rest.rd.length < stdin.length := by
  cases stdin with
  | nil =>
    simp [Reader.ReadString, Reader.ReadSlice, NewReader, Reader.ReadSlice.loop,
      Reader.ReadSlice.search, splitDelim] at h
  | cons x tail =>
    have hlen := ReadSlice_loop_length delim tail
      (Reader.fill { rd := x :: tail, buf := [], err := none }).buf
      (Reader.fill { rd := x :: tail, buf := [], err := none }).err
    have hrest : rest = (Reader.ReadSlice.loop delim tail
        (Reader.fill { rd := x :: tail, buf := [], err := none }).buf
        (Reader.fill { rd := x :: tail, buf := [], err := none }).err).2 := by
      have h2 := congrArg Prod.snd h
      simp only [Reader.ReadString, Reader.ReadSlice, NewReader] at h2
      rw [Reader.ReadSlice.loop] at h2
      simp only [Reader.ReadSlice.search, splitDelim] at h2
      exact h2.symm
    rw [hrest]
    simp only [List.length_cons]
    omega

theorem Run_after_exit (events : List Event) (r : Run) : (Run.after events r).exit = r.exit :=
  rfl

/-- With more rounds than the console has read results the loop ends by itself: `main`
returns or `log.Fatal` exits (or the run panics), the rounds are never used up. -/
theorem mainLoop_terminates (env : Env) (gabiUrl bearerToken : String) :
    ∀ (fuel : Nat) (stdin : Stdin), stdin.length < fuel →
      (mainLoop env gabiUrl bearerToken fuel stdin).exit ≠ Exit.outOfFuel := by
  intro fuel
  induction fuel with
  | zero => intro stdin h; omega
  | succ fuel ih =>
    intro stdin hlen
    rcases hread : (NewReader stdin).ReadString ';' with ⟨⟨query, err⟩, rest⟩
    have hrec : err = none →
        (mainLoop env gabiUrl bearerToken fuel rest.rd).exit ≠ Exit.outOfFuel := by
      intro he
      subst he
      have := ReadString_fresh_consumes stdin ';' query rest hread
      exact ih rest.rd (by omega)
    cases err with
    | some e =>
      by_cases hEOF : errorsIsEOF e = true <;> simp [mainLoop, hread, hEOF]
    | none =>
      have hrec := hrec rfl
      rcases hq : queryGabi env gabiUrl query bearerToken with ⟨res, qerr⟩
      cases qerr with
      | some e => simpa [mainLoop, hread, hq, Run_after_exit] using hrec
      | none =>
        by_cases herr : res.Error = ""
        · cases hf : formatResult env.Layout res with
          | error p => simp [mainLoop, hread, hq, herr, hf]
          | ok out => simpa [mainLoop, hread, hq, herr, hf, Run_after_exit] using hrec
        · simpa [mainLoop, hread, hq, herr, Run_after_exit] using hrec

/-- C6: when the console read yields a query and `queryGabi` returns a decoded response
with a non-empty error field, the round prints the prompt, calls `queryGabi`, writes
`Error: ` followed by the error string and a newline to the error stream, does not
call `formatResult`, writes nothing else, and the loop goes on with the next read. -/
theorem mainLoop_application_error (env : Env) (gabiUrl bearerToken : String) (fuel : Nat)
    (stdin : Stdin) (query : String) (rest : Reader) (r : QueryResponse)
    (hread : (NewReader stdin).ReadString ';' = ((query, none), rest))
    (hq : queryGabi env gabiUrl query bearerToken = (r, none))
    (herr : r.Error ≠ "") :
    mainLoop env gabiUrl bearerToken (fuel + 1) stdin =
      Run.after [Event.stdout "> ", Event.queryGabi gabiUrl query bearerToken,
          Event.stderr ("Error: " ++ r.Error ++ "\n")]
        (mainLoop env gabiUrl bearerToken fuel rest.rd) := by
  simp [mainLoop, hread, hq, herr]

theorem mainLoop_application_error_witness :
    queryGabi (envWith 400 ({ Result := [], Error := "bad query" }, none)) "https://gabi"
        "select x;" "token" = ({ Result := [], Error := "bad query" }, none) ∧
    mainLoop (envWith 400 ({ Result := [], Error := "bad query" }, none)) "https://gabi"
        "token" 3 [ReadResult.data "select x;".toList] =
      { trace := [Event.stdout "> ", Event.queryGabi "https://gabi" "select x;" "token",
          Event.stderr "Error: bad query\n", Event.stdout "> "],
        exit := Exit.returned } :=
  ⟨rfl, mainLoop_application_error
    (envWith 400 ({ Result := [], Error := "bad query" }, none)) "https://gabi" "token" 2
    [ReadResult.data "select x;".toList] "select x;" _ _ rfl rfl (by decide)⟩

/-- C9 fails on the code: a console that delivers `a;b;` in one read gets only the query
`a;` dispatched before the loop ends on end of input, where the claim has the two
queries `a;` and `b;`; the bytes buffered after the first delimiter go with the
reader that each round makes anew. -/
theorem main_drops_buffered_query :
    (main { Host := "cluster", BearerToken := "token" } "ns" none (.ok exampleRoutes)
        (envWith 200 (exampleResult, none)) [ReadResult.data "a;b;".toList]).queries
      = ["a;"] ∧
    (main { Host := "cluster", BearerToken := "token" } "ns" none (.ok exampleRoutes)
        (envWith 200 (exampleResult, none)) [ReadResult.data "a;b;".toList]).exit
      = Exit.returned ∧
    specQueries [ReadResult.data "a;b;".toList] = ["a;", "b;"] := by
  refine ⟨by decide, by decide, by decide⟩

/-- C10: when the console read of a round ends with an error, no query is sent in that
round or after it, whatever text was read before the error: if the error is the end
of input the loop ends and `main` returns, otherwise `log.Fatal` exits with the
error. -/
theorem mainLoop_read_error (env : Env) (gabiUrl bearerToken : String) (fuel : Nat)
    (stdin : Stdin) (text : String) (err : GoError) (rest : Reader)
    (hread : (NewReader stdin).ReadString ';' = ((text, some err), rest)) :
    mainLoop env gabiUrl bearerToken (fuel + 1) stdin =
      (if errorsIsEOF err = true then { trace := [Event.stdout "> "], exit := Exit.returned }
       else { trace := [Event.stdout "> "], exit := Exit.fatal err.Error }) ∧
    (mainLoop env gabiUrl bearerToken (fuel + 1) stdin).queries = [] := by
  by_cases hEOF : errorsIsEOF err = true <;>
    simp [mainLoop, hread, hEOF, Run.queries]

theorem mainLoop_read_error_witness :
    (NewReader [ReadResult.data "select 1".toList]).ReadString ';' =
      (("select 1", some GoError.EOF), { rd := [], buf := [], err := none }) ∧
    mainLoop (envWith 200 (exampleResult, none)) "https://gabi" "token" 1
        [ReadResult.data "select 1".toList] =
      { trace := [Event.stdout "> "], exit := Exit.returned } ∧
    (mainLoop (envWith 200 (exampleResult, none)) "https://gabi" "token" 1
        [ReadResult.data "select 1".toList]).queries = [] :=
  ⟨by decide, mainLoop_read_error (envWith 200 (exampleResult, none)) "https://gabi" "token" 0
    [ReadResult.data "select 1".toList] "select 1" GoError.EOF
    { rd := [], buf := [], err := none } (by decide)⟩

end GabiCli
